import Mathlib

/-!
Shallow embedding of the vrpy column-generation solver
(`vrpy/main.py` and `vrpy/master_solve_pulp.py`), together with theorems
about the pricing loop, the master-problem interface, and the helper
algorithms.  Machine floats of the source are modelled as rationals,
Python `None` as `Option`, and raised exceptions as `Except.error`.
-/

set_option linter.unusedVariables false

/-! ### Time budget (`VehicleRoutingProblem._get_time_remaining`) -/

/-- Embeds `VehicleRoutingProblem._get_time_remaining` (main.py).
`time_limit` is `self._time_limit` (`none` for Python `None`), `elapsed`
is `time() - self._start_time`.  Python's `if self._time_limit:` is falsy
both for `None` and for a limit equal to `0`, which the first two
branches mirror. -/
def get_time_remaining (time_limit : Option ℚ) (elapsed : ℚ) (mip : Bool) : Option ℚ :=
  match time_limit with
  | none => none
  | some limit =>
    if limit = 0 then none
    else
      let remaining_time := limit - elapsed
      if mip then some (max 5 remaining_time)
      else if 0 < remaining_time then some remaining_time
      else some 0

/-- The behaviour the specification ascribes to `_get_time_remaining`,
for one configured limit and one elapsed time: `None` without a limit,
`max(5, remaining)` (hence at least `5`) for MIP requests, the positive
remainder or exactly `0` otherwise. -/
def time_remaining_spec (limit elapsed : ℚ) : Prop :=
  get_time_remaining none elapsed true = none
  ∧ get_time_remaining none elapsed false = none
  ∧ get_time_remaining (some limit) elapsed true = some (max 5 (limit - elapsed))
  ∧ 5 ≤ ((get_time_remaining (some limit) elapsed true).getD 0)
  ∧ (elapsed < limit → get_time_remaining (some limit) elapsed false = some (limit - elapsed))
  ∧ (limit ≤ elapsed → get_time_remaining (some limit) elapsed false = some 0)

/-- C4 (counterexample): with a configured time limit of `0`, a MIP
request does not get `max(5, remaining)`: Python's truthiness test
`if self._time_limit:` treats the limit `0` like `None`, so the function
returns `None` instead of `5`. -/
theorem time_remaining_zero_limit_cex :
    get_time_remaining (some 0) 3 true = none
    ∧ (none : Option ℚ) ≠ some (max 5 ((0 : ℚ) - 3)) := by
  constructor
  · rfl
  · intro h
    exact Option.noConfusion h

/-- C4 (amended): for every nonzero configured time limit and every
elapsed time, `_get_time_remaining` returns `None` when no limit is
configured, `max(5, remaining)` (never below `5`) for MIP requests, the
remaining time when positive, and exactly `0` once `elapsed ≥ limit`;
a limit configured as `0` is instead treated like no limit. -/
theorem time_remaining_characterization (limit elapsed : ℚ) (h : limit ≠ 0) :
    time_remaining_spec limit elapsed := by
  refine ⟨rfl, rfl, ?_, ?_, ?_, ?_⟩
  · simp [get_time_remaining, h]
  · simp only [get_time_remaining, h, if_false, if_true, reduceIte, Option.getD_some]
    exact le_max_left 5 (limit - elapsed)
  · intro hlt
    have hpos : 0 < limit - elapsed := sub_pos.mpr hlt
    simp [get_time_remaining, h, hpos]
  · intro hle
    have hnpos : ¬ 0 < limit - elapsed := by
      simp only [sub_pos, not_lt]
      exact hle
    simp [get_time_remaining, h, hnpos]

/-- C4 (witness): the characterization applies, e.g., to a limit of `10`
with `12` time units elapsed. -/
theorem time_remaining_characterization_witness :
    (10 : ℚ) ≠ 0 ∧ time_remaining_spec 10 12 :=
  ⟨by norm_num, time_remaining_characterization 10 12 (by norm_num)⟩

/-! ### Master problem status handling (`MasterSolvePulp.solve`) -/

/-- The status vocabulary of the external `pulp` solver interface. -/
inductive LpStatus where
  | Optimal
  | NotSolved
  | Infeasible
  | Unbounded
  | Undefined
deriving DecidableEq

/-- The strings of `pulp.LpStatus`. -/
def lpStatusName : LpStatus → String
  | .Optimal => "Optimal"
  | .NotSolved => "Not Solved"
  | .Infeasible => "Infeasible"
  | .Unbounded => "Unbounded"
  | .Undefined => "Undefined"

/-- Embeds `MasterSolvePulp.solve` (master_solve_pulp.py).  `_solve` has
already run the external LP/MIP solver; the resulting `status`, cached
`duals` and `objective` are inputs here.  The status string is compared
against "Optimal" and a bare `Exception` is raised otherwise; the `relax`
flag only selects some debug logging and is not consulted by the status
check. -/
def master_solve (status : LpStatus) (duals : List (String × ℚ)) (objective : ℚ)
    (relax : Bool) : Except String (List (String × ℚ) × ℚ) :=
  if lpStatusName status ≠ "Optimal" then
    Except.error ("problem " ++ lpStatusName status)
  else
    Except.ok (duals, objective)

/-- C5 (counterexample): a non-optimal status on the integer solve
(`relax = False`) raises the same fatal error as on the relaxed solve,
instead of being handled as a degraded/partial result. -/
theorem integer_solve_nonoptimal_raises :
    master_solve LpStatus.Infeasible [] 0 false = Except.error "problem Infeasible" := by
  rfl

/-- C5 (amended): `MasterSolvePulp.solve` raises a fatal error if and
only if the solver status is not Optimal, regardless of whether the solve
was relaxed (`relax = True`) or integer (`relax = False`); the integer
resolve in `VehicleRoutingProblem.solve` therefore also aborts on a
non-optimal status. -/
theorem solve_raises_iff_nonoptimal (status : LpStatus) (duals : List (String × ℚ))
    (objective : ℚ) (relax : Bool) :
    (∃ msg, master_solve status duals objective relax = Except.error msg)
      ↔ status ≠ LpStatus.Optimal := by
  cases status <;> simp [master_solve, lpStatusName]

/-! ### Route selection (`MasterSolvePulp.get_total_cost_and_routes`) -/

/-- A column of the master problem: the route's `graph["name"]` together
with its `graph["heuristic"]` origin tag (`none` when the tag was never
set). -/
structure Route where
  name : Nat
  heuristic : Option String
deriving DecidableEq

/-- Embeds `MasterSolvePulp.get_total_cost_and_routes`: a route is
collected into `best_routes` exactly when `pulp.value` of its selection
variable is neither `None` nor `≤ 0`; `resolved_cost` is the objective
value after `self.prob.resolve()`, with Python's
`if not total_cost: total_cost = 0` collapsing `None` (and `0.0`) to `0`. -/
def get_total_cost_and_routes (routes : List Route) (yval : Nat → Option ℚ)
    (resolved_cost : Option ℚ) : ℚ × List Route :=
  let best_routes := routes.filter (fun r =>
    match yval r.name with
    | some val => decide (0 < val)
    | none => false)
  let total_cost :=
    match resolved_cost with
    | none => 0
    | some c => c
  (total_cost, best_routes)

/-- Embeds the dropped-node extraction of `get_total_cost_and_routes`:
`[v for v in self.drop if pulp.value(self.drop[v]) > 0.5]` — the `0.5`
threshold of the source applies to drop variables, not to route
selection. -/
def dropped_nodes (drop_vals : List (String × ℚ)) : List String :=
  (drop_vals.filter (fun p => decide (mkRat 1 2 < p.2))).map Prod.fst

/-- C6 (counterexample): a route whose selection variable has value
`0.3`, which is not strictly above the `0.5` threshold, is nevertheless
returned as selected, because the source filters with `val > 0`. -/
theorem route_selected_below_half_cex :
    (get_total_cost_and_routes [⟨1, none⟩] (fun _ => some (mkRat 3 10)) (some 0)).2
        = [⟨1, none⟩]
    ∧ ¬ (mkRat 1 2 < mkRat 3 10) := by
  constructor
  · decide
  · decide

/-- C6 (amended): `get_total_cost_and_routes` returns exactly the routes
whose selection-variable value is present (not `None`) and strictly
positive; the `0.5` threshold is used only for drop variables. -/
theorem selected_routes_characterization (routes : List Route) (yval : Nat → Option ℚ)
    (resolved_cost : Option ℚ) (r : Route) :
    r ∈ (get_total_cost_and_routes routes yval resolved_cost).2
      ↔ r ∈ routes ∧ ∃ v, yval r.name = some v ∧ 0 < v := by
  simp only [get_total_cost_and_routes, List.mem_filter]
  constructor
  · rintro ⟨hmem, hval⟩
    refine ⟨hmem, ?_⟩
    cases h : yval r.name with
    | none => rw [h] at hval; exact absurd hval (by simp)
    | some v =>
      rw [h] at hval
      exact ⟨v, rfl, by simpa using hval⟩
  · rintro ⟨hmem, v, hv, hpos⟩
    exact ⟨hmem, by simp [hv, hpos]⟩

/-! ### Stop-count knapsack (`VehicleRoutingProblem.knapsack`) -/

/-- Embeds `VehicleRoutingProblem.knapsack` (main.py), the binary
knapsack DP with unit profits, including Python's negative-index
semantics: when `i = 0`, the reads of `sol[i - 1]` hit `sol[n - 1]`,
which for `n = 1` is the very row currently being written.  (For empty
`weights` the Python code raises an `IndexError` on `sol[n - 1]`; here
that case returns `0`.) -/
def knapsack (weights : List Nat) (capacity : Nat) : Nat :=
  let n := weights.length
  if n = 0 then 0
  else
    let init : List (List Nat) := List.replicate n (List.replicate (capacity + 1) 0)
    let sol := (List.range n).foldl (fun sol i =>
      (List.range (capacity + 1)).foldl (fun sol j =>
        let prev := if i = 0 then n - 1 else i - 1
        let wi := weights.getD i 0
        let cur :=
          if wi > j then (sol.getD prev []).getD j 0
          else
            let sol_add := 1 + (sol.getD prev []).getD (j - wi) 0
            if sol_add > (sol.getD prev []).getD j 0 then sol_add
            else (sol.getD prev []).getD j 0
        sol.set i ((sol.getD i []).set j cur)) sol) init
    (sol.getD (n - 1) []).getD capacity 0

/-- The quantity promised by `knapsack`'s docstring: the largest number
of items whose total weight fits within the capacity, each item used at
most once. -/
def max_selectable_items (weights : List Nat) (capacity : Nat) : Nat :=
  ((weights.sublists.filter (fun s => decide (s.sum ≤ capacity))).map List.length).foldr max 0

/-- C9 (code bug): on the single-item input `weights = [2]`,
`capacity = 4`, the DP reads its own partially updated row (Python
`sol[-1]` aliases `sol[0]` when `n = 1`) and counts the only item twice,
returning `2` where the docstring's binary knapsack value is `1`.  On the
specification's example `[3, 4, 5]` with capacity `7` the code and the
docstring agree on `2`. -/
theorem knapsack_single_item_overcount :
    knapsack [2] 4 = 2 ∧ max_selectable_items [2] 4 = 1
    ∧ knapsack [3, 4, 5] 7 = 2 ∧ max_selectable_items [3, 4, 5] 7 = 2 := by
  refine ⟨?_, ?_, ?_, ?_⟩ <;> decide

/-! ### Pricing attempts (`_attempt_solve_*`, `_solve_subproblem_with_heuristic`) -/

/-- One call to `subproblem.solve` made through `_def_subproblem`: the
strategy name passed, the pricing parameter (`none` for the Exact
strategy, for which `_def_subproblem` uses its defaults), and the
`more_routes` flag the subproblem returned. -/
structure Call where
  strategy : String
  param : Option ℚ
  found : Bool
deriving DecidableEq

/-- The pricing subproblem (`SubProblemCSPY` / `SubProblemLP`), an
external collaborator: for a strategy name and pricing parameter it
yields the `(self.routes, self._more_routes)` pair that
`subproblem.solve` assigns. -/
abbrev Oracle : Type := String → Option ℚ → List Route × Bool

/-- Result of one pricing attempt: the final `self.routes`,
`self._more_routes`, the local `produced_column`, and the list of
subproblem calls that were made. -/
structure AttemptResult where
  routes : List Route
  more_routes : Bool
  produced_column : Bool
  calls : List Call
deriving DecidableEq

/-- The shared `for param in [...]: ... else: self._more_routes = True`
shape of `_attempt_solve_best_paths`, `_attempt_solve_BestEdges1` and
`_attempt_solve_BestEdges2` (main.py): probe the parameters in order,
overwrite `self.routes` and `self._more_routes` with each call's result,
set `produced_column` to the flag, break on the first success, and reset
`self._more_routes` to `True` when the loop is exhausted (Python
`for`/`else`). -/
def sweep_params (oracle : Oracle) (strat : String) :
    List Route → List ℚ → List Call → AttemptResult
  | routes0, [], calls => ⟨routes0, true, false, calls⟩
  | _, p :: ps, calls =>
    let res := oracle strat (some p)
    if res.2 then ⟨res.1, res.2, res.2, calls ++ [⟨strat, some p, res.2⟩]⟩
    else sweep_params oracle strat res.1 ps (calls ++ [⟨strat, some p, res.2⟩])

/-- `[3, 5, 7, 9]`, the `k_shortest_paths` values of
`_attempt_solve_best_paths`. -/
def bestPathsParams : List ℚ := [3, 5, 7, 9]

/-- `[0.3, 0.5, 0.7, 0.9]`, the `alpha` values of
`_attempt_solve_BestEdges1`. -/
def bestEdges1Params : List ℚ := [mkRat 3 10, mkRat 5 10, mkRat 7 10, mkRat 9 10]

/-- `[0.1, 0.2, 0.3]`, the parameter values of
`_attempt_solve_BestEdges2`. -/
def bestEdges2Params : List ℚ := [mkRat 1 10, mkRat 2 10, mkRat 3 10]

/-- Embeds `_attempt_solve_best_paths` (main.py). -/
def attempt_solve_best_paths (oracle : Oracle) (routes0 : List Route) : AttemptResult :=
  sweep_params oracle "BestPaths" routes0 bestPathsParams []

/-- Embeds `_attempt_solve_BestEdges1` (main.py). -/
def attempt_solve_BestEdges1 (oracle : Oracle) (routes0 : List Route) : AttemptResult :=
  sweep_params oracle "BestEdges1" routes0 bestEdges1Params []

/-- Embeds `_attempt_solve_BestEdges2` (main.py). -/
def attempt_solve_BestEdges2 (oracle : Oracle) (routes0 : List Route) : AttemptResult :=
  sweep_params oracle "BestEdges2" routes0 bestEdges2Params []

/-- Embeds `_attempt_solve_Exact` (main.py): a single subproblem call
through `_def_subproblem(duals, vehicle)` with its default strategy
"Exact" and no pricing parameter; `produced_column` is the returned
`more_routes` flag. -/
def attempt_solve_Exact (oracle : Oracle) : AttemptResult :=
  let res := oracle "Exact" none
  ⟨res.1, res.2, res.2, [⟨"Exact", none, res.2⟩]⟩

/-- Embeds `_solve_subproblem_with_heuristic` (main.py).  `mode` is
`self._pricing_strategy`, `strategy` the per-iteration choice handed in
by `_find_columns`, `more0` the incoming `self._more_routes` (left
untouched when no branch fires) and `routes0` the incoming `self.routes`.
Under mode "Hyper" exactly the branch of the chosen strategy runs, with
no fallback (the "Exact" branch additionally bumps the
`hyper_heuristic.n_exact` statistics counter, not modelled); in every
other mode the "old approach" runs the matching non-exact sweep, if any,
and escalates to `_attempt_solve_Exact` when the chosen strategy is
"Exact" or no column was produced. -/
def solve_subproblem_with_heuristic (mode strategy : String) (oracle : Oracle)
    (more0 : Bool) (routes0 : List Route) : AttemptResult :=
  if mode = "Hyper" then
    if strategy = "BestPaths" then attempt_solve_best_paths oracle routes0
    else if strategy = "BestEdges1" then attempt_solve_BestEdges1 oracle routes0
    else if strategy = "BestEdges2" then attempt_solve_BestEdges2 oracle routes0
    else if strategy = "Exact" then attempt_solve_Exact oracle
    else ⟨routes0, more0, false, []⟩
  else
    let r1 :=
      if strategy = "BestPaths" then attempt_solve_best_paths oracle routes0
      else if strategy = "BestEdges1" then attempt_solve_BestEdges1 oracle routes0
      else if strategy = "BestEdges2" then attempt_solve_BestEdges2 oracle routes0
      else ⟨routes0, more0, false, []⟩
    if strategy = "Exact" ∨ r1.produced_column = false then
      let r2 := attempt_solve_Exact oracle
      ⟨r2.routes, r2.more_routes, r2.produced_column, r1.calls ++ r2.calls⟩
    else r1

/-- The parameters a sweep actually probes: every parameter up to and
including the first successful one, or the whole list when none
succeeds. -/
def probedParams (oracle : Oracle) (strat : String) : List ℚ → List ℚ
  | [] => []
  | p :: ps =>
    if (oracle strat (some p)).2 then [p]
    else p :: probedParams oracle strat ps

theorem sweep_params_more (oracle : Oracle) (strat : String) :
    ∀ (L : List ℚ) (rs0 : List Route) (cs : List Call),
      (sweep_params oracle strat rs0 L cs).more_routes = true := by
  intro L
  induction L with
  | nil => intro rs0 cs; rfl
  | cons p ps ih =>
    intro rs0 cs
    by_cases h : (oracle strat (some p)).2 = true
    · simp [sweep_params, h]
    · simp only [Bool.not_eq_true] at h
      simp only [sweep_params, h, if_false, Bool.false_eq_true]
      exact ih _ _

theorem sweep_params_spec (oracle : Oracle) (strat : String) :
    ∀ (L : List ℚ) (rs0 : List Route) (cs : List Call),
      ((sweep_params oracle strat rs0 L cs).produced_column = true ↔
        ∃ p ∈ L, (oracle strat (some p)).2 = true)
      ∧ (sweep_params oracle strat rs0 L cs).calls =
          cs ++ (probedParams oracle strat L).map
            (fun p => ⟨strat, some p, (oracle strat (some p)).2⟩)
      ∧ ((sweep_params oracle strat rs0 L cs).produced_column = false →
          (probedParams oracle strat L).length = L.length) := by
  intro L
  induction L with
  | nil =>
    intro rs0 cs
    refine ⟨by simp [sweep_params], by simp [sweep_params, probedParams], fun _ => rfl⟩
  | cons p ps ih =>
    intro rs0 cs
    by_cases h : (oracle strat (some p)).2 = true
    · refine ⟨?_, ?_, ?_⟩
      · simp [sweep_params, h]
      · simp [sweep_params, probedParams, h]
      · intro hfalse
        exfalso
        simp [sweep_params, h] at hfalse
    · simp only [Bool.not_eq_true] at h
      obtain ⟨ih1, ih2, ih3⟩ :=
        ih (oracle strat (some p)).1 (cs ++ [⟨strat, some p, (oracle strat (some p)).2⟩])
      rw [h] at ih1 ih2 ih3
      refine ⟨?_, ?_, ?_⟩
      · simp only [sweep_params, h, if_false, Bool.false_eq_true]
        rw [ih1]
        simp [h]
      · simp only [sweep_params, h, if_false, Bool.false_eq_true]
        rw [ih2]
        simp [probedParams, h]
      · intro hfalse
        simp only [sweep_params, h, if_false, Bool.false_eq_true] at hfalse
        simp only [probedParams, h, if_false, Bool.false_eq_true, List.length_cons]
        rw [ih3 hfalse]

/-- The contract the specification states for one non-exact sweep:
`produced_column` succeeds exactly when some parameter in the ordered
list succeeds, the calls made are exactly the parameters up to and
including the first successful one (in order, with the chosen strategy
name), and on failure the whole parameter list has been tried. -/
def sweep_contract (oracle : Oracle) (strat : String) (params : List ℚ)
    (res : AttemptResult) : Prop :=
  (res.produced_column = true ↔ ∃ p ∈ params, (oracle strat (some p)).2 = true)
  ∧ res.calls = (probedParams oracle strat params).map
      (fun p => ⟨strat, some p, (oracle strat (some p)).2⟩)
  ∧ (res.produced_column = false → res.calls.length = params.length)

/-- C7: each non-exact pricing attempt probes its fixed ordered parameter
list (BestPaths: 3,5,7,9; BestEdges1: 0.3,0.5,0.7,0.9; BestEdges2:
0.1,0.2,0.3) in order, stops at the first parameter whose subproblem
solve reports a route, and reports `produced_column = False` only after
the whole list has failed. -/
theorem sweep_parameter_order_contract (oracle : Oracle) (routes0 : List Route) :
    sweep_contract oracle "BestPaths" bestPathsParams
        (attempt_solve_best_paths oracle routes0)
    ∧ sweep_contract oracle "BestEdges1" bestEdges1Params
        (attempt_solve_BestEdges1 oracle routes0)
    ∧ sweep_contract oracle "BestEdges2" bestEdges2Params
        (attempt_solve_BestEdges2 oracle routes0) := by
  refine ⟨?_, ?_, ?_⟩
  · show sweep_contract oracle "BestPaths" bestPathsParams
      (sweep_params oracle "BestPaths" routes0 bestPathsParams [])
    obtain ⟨h1, h2, h3⟩ := sweep_params_spec oracle "BestPaths" bestPathsParams routes0 []
    exact ⟨h1, by simpa using h2, fun hf => by rw [h2]; simp [h3 hf]⟩
  · show sweep_contract oracle "BestEdges1" bestEdges1Params
      (sweep_params oracle "BestEdges1" routes0 bestEdges1Params [])
    obtain ⟨h1, h2, h3⟩ := sweep_params_spec oracle "BestEdges1" bestEdges1Params routes0 []
    exact ⟨h1, by simpa using h2, fun hf => by rw [h2]; simp [h3 hf]⟩
  · show sweep_contract oracle "BestEdges2" bestEdges2Params
      (sweep_params oracle "BestEdges2" routes0 bestEdges2Params [])
    obtain ⟨h1, h2, h3⟩ := sweep_params_spec oracle "BestEdges2" bestEdges2Params routes0 []
    exact ⟨h1, by simpa using h2, fun hf => by rw [h2]; simp [h3 hf]⟩

/-! ### Master columns and the column-generation state machine -/

/-- The restricted master problem as `_find_columns` sees it: the
columns (one `y[name]` selection variable per added route, in insertion
order) and the constraint rows (opaque here; `update` never touches
them). -/
structure Master where
  columns : List Route
  constrs : List String
deriving DecidableEq

/-- Embeds `MasterSolvePulp.update` / `_add_route_selection_variable`:
adds exactly one new selection variable built from the route, binding it
to the existing constraint rows without modifying them. -/
def Master.update (m : Master) (r : Route) : Master :=
  { m with columns := m.columns ++ [r] }

/-- The configuration fixed for one `VehicleRoutingProblem.solve` call.
`greedy` stands for `self._greedy` conjoined with the absence of time
windows, distribution-collection and pickup-delivery (the guard of the
greedy pre-pass). -/
structure Config where
  pricing_strategy : String
  vehicle_types : Nat
  greedy : Bool
  dive : Bool
  max_iter : Option Nat
  time_limit : Option ℚ
  performance_measure : String

/-- The external inputs consumed by one `_find_columns` iteration: the
relaxed master objective (the duals are folded into the oracle), the
hyper-heuristic's `pick_heurestic()` choice, one pricing oracle per
vehicle type, the randomized-greedy `(routes, flag)` result per vehicle
type, and the elapsed wall-clock time at the loop's time check. -/
structure IterEnv where
  relaxed_cost : ℚ
  pick : String
  oracle : Nat → Oracle
  greedy_result : Nat → List Route × Bool
  elapsed : ℚ

/-- The mutable solver state threaded through `_column_generation`:
`self._more_routes`, `self.routes`, the master problem, the last
`self.produced_column`, `self._iteration`, `self._no_improvement`,
`self._lower_bound`, `self.do_exact` and
`self.hyper_heuristic.initialisation`. -/
structure CGState where
  more_routes : Bool
  routes : List Route
  master : Master
  produced_column : Bool
  iteration : Nat
  no_improvement : Nat
  lower_bound : List ℚ
  do_exact : Nat
  hyper_init : Bool

/-- Modelled from the spec: `pick_heurestic` lives in
`hyperheuristic.py`, which is not among the sources here; section 3 of
the specification fixes the strategy pool to
{Exact, BestPaths, BestEdges1, BestEdges2}, so the hyper-heuristic's
choice ranges over this list. -/
def strategy_pool : List String := ["BestPaths", "BestEdges1", "BestEdges2", "Exact"]

/-- Embeds the strategy-selection block of `_find_columns`
(main.py:612-637): under mode "Hyper" with the no-improvement counter
away from `do_exact`, either initialise (shrinking `do_exact` to 30 for
the "Relative improvement" performance measure and forcing "BestPaths")
or take the hyper-heuristic's pick; otherwise, when the counter has
reached `do_exact`, reset it to 0 and force "Exact"; otherwise use the
configured strategy.  (The local `update` flag and the hyper-heuristic's
`current_performance` / `move_acceptance` / `update_parameters` calls
only affect hyper-heuristic internals and are not modelled.) -/
def pick_strategy (cfg : Config) (env : IterEnv) (st : CGState) : CGState × String :=
  if cfg.pricing_strategy = "Hyper" ∧ ¬ st.no_improvement = st.do_exact then
    if st.hyper_init then
      let d := if cfg.performance_measure = "Relative improvement" then 30 else st.do_exact
      ({ st with do_exact := d, hyper_init := false }, "BestPaths")
    else (st, env.pick)
  else if st.no_improvement = st.do_exact then
    ({ st with no_improvement := 0 }, "Exact")
  else (st, cfg.pricing_strategy)

/-- Embeds the randomized-greedy pre-pass of `_find_columns`
(main.py:642-653): when enabled, `SubProblemGreedy.solve(n_runs=20)`
replaces `self.routes` and `self._more_routes`, and on success every
returned route whose name is not yet among the master's columns is added
to the master problem. -/
def greedy_pass (cfg : Config) (env : IterEnv) (vehicle : Nat) (st : CGState) : CGState :=
  if cfg.greedy then
    let res := env.greedy_result vehicle
    let master :=
      if res.2 then
        res.1.foldl (fun m r =>
          if (m.columns.map Route.name).contains r.name then m else m.update r) st.master
      else st.master
    { st with routes := res.1, more_routes := res.2, master := master }
  else st

/-- Embeds main.py:655-676: reset `self._more_routes` to `False`, run
`_solve_subproblem_with_heuristic`, and when it reports routes and a
produced column, tag the last route of `self.routes` with the chosen
strategy and add it — and only it — to the master problem.  (When
`produced_column` holds with an empty route list, the source's
`self.routes[-1]` would raise; the external subproblem never reports a
column without a route, and that branch is left as the identity.) -/
def pricing_pass (mode strat : String) (oracle : Oracle) (st : CGState) :
    CGState × List Call :=
  let out := solve_subproblem_with_heuristic mode strat oracle false st.routes
  let st1 := { st with routes := out.routes, more_routes := out.more_routes,
                       produced_column := out.produced_column }
  if out.more_routes then
    if out.produced_column then
      match out.routes.getLast? with
      | some last =>
        let tagged := { last with heuristic := some strat }
        ({ st1 with routes := out.routes.dropLast ++ [tagged],
                    master := st1.master.update tagged }, out.calls)
      | none => (st1, out.calls)
    else (st1, out.calls)
  else (st1, out.calls)

/-- One turn of the `for vehicle in range(self._vehicle_types)` loop of
`_find_columns`, also accumulating the subproblem calls made. -/
def vehicle_step (cfg : Config) (env : IterEnv) (strat : String)
    (acc : CGState × List Call) (vehicle : Nat) : CGState × List Call :=
  let stg := greedy_pass cfg env vehicle acc.1
  let pr := pricing_pass cfg.pricing_strategy strat (env.oracle vehicle) stg
  (pr.1, acc.2 ++ pr.2)

/-- Embeds `_find_columns` (main.py): solve the (possibly diving) master
relaxation (external; its objective is `env.relaxed_cost`), select the
strategy, run the per-vehicle pricing loop, then do the convergence
bookkeeping — increment the iteration counter, increment the
no-improvement counter when the objective equals the last recorded lower
bound on a non-first iteration and reset it to 0 otherwise, and append
the objective to the lower-bound history unless diving.  Returns the new
state and the subproblem calls made this iteration. -/
def find_columns (cfg : Config) (env : IterEnv) (st : CGState) : CGState × List Call :=
  let pick := pick_strategy cfg env st
  let swept := (List.range cfg.vehicle_types).foldl (vehicle_step cfg env pick.2) (pick.1, [])
  let st2 := swept.1
  let iteration := st2.iteration + 1
  let no_improvement :=
    if 1 < iteration ∧ st2.lower_bound.getLast? = some env.relaxed_cost
    then st2.no_improvement + 1
    else 0
  let lower_bound :=
    if cfg.dive then st2.lower_bound else st2.lower_bound ++ [env.relaxed_cost]
  ({ st2 with iteration := iteration, no_improvement := no_improvement,
              lower_bound := lower_bound }, swept.2)

/-- The loop's time check (main.py:277-278):
`isinstance(self._get_time_remaining(), float) and
self._get_time_remaining() == 0.0`, which holds exactly when
`_get_time_remaining` returns the float `0.0`. -/
def time_up (cfg : Config) (env : IterEnv) : Bool :=
  decide (get_time_remaining cfg.time_limit env.elapsed false = some 0)

/-- Python's `self._max_iter and self._iteration >= self._max_iter`
(main.py:282-283): `None` and `0` are falsy. -/
def max_iter_reached (max_iter : Option Nat) (iteration : Nat) : Bool :=
  match max_iter with
  | none => false
  | some m => if m = 0 then false else decide (m ≤ iteration)

/-- Embeds `_column_generation` (main.py:272-284) over the list of
per-iteration external inputs: while `self._more_routes`, run
`_find_columns`, then stop on the time check, on more than 1000
non-improving iterations, or on the max-iteration cap. -/
def column_generation (cfg : Config) : List IterEnv → CGState → CGState
  | [], st => st
  | env :: rest, st =>
    if st.more_routes = true then
      let st1 := (find_columns cfg env st).1
      if time_up cfg env = true then st1
      else if 1000 < st1.no_improvement ∨ max_iter_reached cfg.max_iter st1.iteration = true
      then st1
      else column_generation cfg rest st1
    else st

/-! ### Branch lemmas for the pricing attempt dispatcher -/

theorem attempt_best_paths_more (oracle : Oracle) (routes0 : List Route) :
    (attempt_solve_best_paths oracle routes0).more_routes = true :=
  sweep_params_more oracle "BestPaths" bestPathsParams routes0 []

theorem attempt_BestEdges1_more (oracle : Oracle) (routes0 : List Route) :
    (attempt_solve_BestEdges1 oracle routes0).more_routes = true :=
  sweep_params_more oracle "BestEdges1" bestEdges1Params routes0 []

theorem attempt_BestEdges2_more (oracle : Oracle) (routes0 : List Route) :
    (attempt_solve_BestEdges2 oracle routes0).more_routes = true :=
  sweep_params_more oracle "BestEdges2" bestEdges2Params routes0 []

theorem attempt_Exact_eq (oracle : Oracle) :
    attempt_solve_Exact oracle =
      ⟨(oracle "Exact" none).1, (oracle "Exact" none).2, (oracle "Exact" none).2,
        [⟨"Exact", none, (oracle "Exact" none).2⟩]⟩ := rfl

/-- Trichotomy for `_solve_subproblem_with_heuristic`: either the routes
flag is left `True` (every sweep ends that way, and a successful Exact
call does too), or the last call made was a failed Exact call and the
flag and `produced_column` are `False`, or (Hyper mode with a strategy
outside the pool) nothing ran at all. -/
theorem solve_sub_cases (mode strategy : String) (oracle : Oracle) (more0 : Bool)
    (routes0 : List Route) :
    (solve_subproblem_with_heuristic mode strategy oracle more0 routes0).more_routes = true
    ∨ ((solve_subproblem_with_heuristic mode strategy oracle more0 routes0).calls.getLast?
          = some ⟨"Exact", none, false⟩
        ∧ (solve_subproblem_with_heuristic mode strategy oracle more0 routes0).more_routes = false
        ∧ (solve_subproblem_with_heuristic mode strategy oracle more0 routes0).produced_column
            = false)
    ∨ (mode = "Hyper" ∧ strategy ∉ strategy_pool
        ∧ solve_subproblem_with_heuristic mode strategy oracle more0 routes0
            = ⟨routes0, more0, false, []⟩) := by
  by_cases hm : mode = "Hyper"
  · by_cases h1 : strategy = "BestPaths"
    · left
      simp only [solve_subproblem_with_heuristic, hm, h1, String.reduceEq, reduceIte]
      exact attempt_best_paths_more oracle routes0
    · by_cases h2 : strategy = "BestEdges1"
      · left
        simp only [solve_subproblem_with_heuristic, hm, h1, h2, String.reduceEq, reduceIte]
        exact attempt_BestEdges1_more oracle routes0
      · by_cases h3 : strategy = "BestEdges2"
        · left
          simp only [solve_subproblem_with_heuristic, hm, h1, h2, h3, String.reduceEq,
            reduceIte]
          exact attempt_BestEdges2_more oracle routes0
        · by_cases h4 : strategy = "Exact"
          · cases hr : (oracle "Exact" none).2 with
            | true =>
              left
              simp only [solve_subproblem_with_heuristic, hm, h1, h2, h3, h4,
                String.reduceEq, reduceIte, attempt_Exact_eq, hr]
            | false =>
              right; left
              simp only [solve_subproblem_with_heuristic, hm, h1, h2, h3, h4,
                String.reduceEq, reduceIte, attempt_Exact_eq, hr]
              simp
          · right; right
            refine ⟨hm, by simp [strategy_pool, h1, h2, h3, h4], ?_⟩
            simp only [solve_subproblem_with_heuristic, hm, h1, h2, h3, h4,
              String.reduceEq, reduceIte]
  · by_cases h1 : strategy = "BestPaths"
    · by_cases hp : (attempt_solve_best_paths oracle routes0).produced_column = true
      · left
        simp only [solve_subproblem_with_heuristic, hm, h1, String.reduceEq, reduceIte,
          hp, Bool.true_eq_false, or_self, or_false, false_or, if_false]
        exact attempt_best_paths_more oracle routes0
      · simp only [Bool.not_eq_true] at hp
        cases hr : (oracle "Exact" none).2 with
        | true =>
          left
          simp only [solve_subproblem_with_heuristic, hm, h1, String.reduceEq, reduceIte,
            hp, eq_self_iff_true, or_true, if_true, attempt_Exact_eq, hr]
        | false =>
          right; left
          simp only [solve_subproblem_with_heuristic, hm, h1, String.reduceEq, reduceIte,
            hp, eq_self_iff_true, or_true, if_true, attempt_Exact_eq, hr]
          simp [List.getLast?_append_cons]
    · by_cases h2 : strategy = "BestEdges1"
      · by_cases hp : (attempt_solve_BestEdges1 oracle routes0).produced_column = true
        · left
          simp only [solve_subproblem_with_heuristic, hm, h1, h2, String.reduceEq, reduceIte,
            hp, Bool.true_eq_false, or_self, or_false, false_or, if_false]
          exact attempt_BestEdges1_more oracle routes0
        · simp only [Bool.not_eq_true] at hp
          cases hr : (oracle "Exact" none).2 with
          | true =>
            left
            simp only [solve_subproblem_with_heuristic, hm, h1, h2, String.reduceEq,
              reduceIte, hp, eq_self_iff_true, or_true, if_true, attempt_Exact_eq, hr]
          | false =>
            right; left
            simp only [solve_subproblem_with_heuristic, hm, h1, h2, String.reduceEq,
              reduceIte, hp, eq_self_iff_true, or_true, if_true, attempt_Exact_eq, hr]
            simp [List.getLast?_append_cons]
      · by_cases h3 : strategy = "BestEdges2"
        · by_cases hp : (attempt_solve_BestEdges2 oracle routes0).produced_column = true
          · left
            simp only [solve_subproblem_with_heuristic, hm, h1, h2, h3, String.reduceEq,
              reduceIte, hp, Bool.true_eq_false, or_self, or_false, false_or, if_false]
            exact attempt_BestEdges2_more oracle routes0
          · simp only [Bool.not_eq_true] at hp
            cases hr : (oracle "Exact" none).2 with
            | true =>
              left
              simp only [solve_subproblem_with_heuristic, hm, h1, h2, h3, String.reduceEq,
                reduceIte, hp, eq_self_iff_true, or_true, if_true, attempt_Exact_eq, hr]
            | false =>
              right; left
              simp only [solve_subproblem_with_heuristic, hm, h1, h2, h3, String.reduceEq,
                reduceIte, hp, eq_self_iff_true, or_true, if_true, attempt_Exact_eq, hr]
              simp [List.getLast?_append_cons]
        · cases hr : (oracle "Exact" none).2 with
          | true =>
            left
            simp only [solve_subproblem_with_heuristic, hm, h1, h2, h3, String.reduceEq,
              reduceIte, eq_self_iff_true, or_true, if_true, attempt_Exact_eq, hr]
          | false =>
            right; left
            simp only [solve_subproblem_with_heuristic, hm, h1, h2, h3, String.reduceEq,
              reduceIte, eq_self_iff_true, or_true, if_true, attempt_Exact_eq, hr]
            simp [List.getLast?_append_cons]

theorem solve_sub_produced_more (mode strategy : String) (oracle : Oracle) (more0 : Bool)
    (routes0 : List Route)
    (h : (solve_subproblem_with_heuristic mode strategy oracle more0 routes0).produced_column
          = true) :
    (solve_subproblem_with_heuristic mode strategy oracle more0 routes0).more_routes = true := by
  rcases solve_sub_cases mode strategy oracle more0 routes0 with h1 | ⟨-, -, h3⟩ | ⟨-, -, h3⟩
  · exact h1
  · exact absurd (h3.symm.trans h) (by decide)
  · rw [h3] at h
    simp at h

theorem pricing_pass_more (mode strat : String) (oracle : Oracle) (st : CGState) :
    (pricing_pass mode strat oracle st).1.more_routes =
      (solve_subproblem_with_heuristic mode strat oracle false st.routes).more_routes := by
  simp only [pricing_pass]
  split
  · split
    · split <;> rfl
    · rfl
  · rfl

theorem pricing_pass_calls (mode strat : String) (oracle : Oracle) (st : CGState) :
    (pricing_pass mode strat oracle st).2 =
      (solve_subproblem_with_heuristic mode strat oracle false st.routes).calls := by
  simp only [pricing_pass]
  split
  · split
    · split <;> rfl
    · rfl
  · rfl

theorem pricing_pass_keeps (mode strat : String) (oracle : Oracle) (st : CGState) :
    (pricing_pass mode strat oracle st).1.iteration = st.iteration
    ∧ (pricing_pass mode strat oracle st).1.no_improvement = st.no_improvement
    ∧ (pricing_pass mode strat oracle st).1.lower_bound = st.lower_bound := by
  simp only [pricing_pass]
  split
  · split
    · split <;> exact ⟨rfl, rfl, rfl⟩
    · exact ⟨rfl, rfl, rfl⟩
  · exact ⟨rfl, rfl, rfl⟩

theorem greedy_pass_keeps (cfg : Config) (env : IterEnv) (vehicle : Nat) (st : CGState) :
    (greedy_pass cfg env vehicle st).iteration = st.iteration
    ∧ (greedy_pass cfg env vehicle st).no_improvement = st.no_improvement
    ∧ (greedy_pass cfg env vehicle st).lower_bound = st.lower_bound := by
  simp only [greedy_pass]
  split
  · exact ⟨rfl, rfl, rfl⟩
  · exact ⟨rfl, rfl, rfl⟩

/-- C10: for a vehicle type whose non-greedy pricing attempt reports a
produced column, exactly one column is added to the master problem: the
last route of the returned route list, tagged with the chosen strategy
name; the other returned routes are not added, the master's constraint
rows are untouched, and the previously existing columns are preserved
unchanged in order. -/
theorem pricing_adds_exactly_last_route (mode strat : String) (oracle : Oracle) (st : CGState)
    (hprod : (solve_subproblem_with_heuristic mode strat oracle false st.routes).produced_column
        = true)
    (hne : (solve_subproblem_with_heuristic mode strat oracle false st.routes).routes ≠ []) :
    ∃ last,
      (solve_subproblem_with_heuristic mode strat oracle false st.routes).routes.getLast?
        = some last
      ∧ (pricing_pass mode strat oracle st).1.master.columns
          = st.master.columns ++ [{ last with heuristic := some strat }]
      ∧ (pricing_pass mode strat oracle st).1.master.constrs = st.master.constrs
      ∧ (pricing_pass mode strat oracle st).1.routes
          = (solve_subproblem_with_heuristic mode strat oracle false st.routes).routes.dropLast
              ++ [{ last with heuristic := some strat }] := by
  have hmore := solve_sub_produced_more mode strat oracle false st.routes hprod
  cases hL : (solve_subproblem_with_heuristic mode strat oracle false st.routes).routes.getLast?
      with
  | none => exact absurd (List.getLast?_eq_none_iff.mp hL) hne
  | some last =>
    refine ⟨last, rfl, ?_, ?_, ?_⟩ <;>
      simp [pricing_pass, Master.update, hmore, hprod, hL]

/-- Concrete instances for the C10 witness. -/
def c10St : CGState := ⟨true, [], ⟨[⟨1, none⟩], ["visit_node_2"]⟩, false, 0, 0, [], 1000, false⟩

/-- An oracle that reports two routes on every call (see `c10St`). -/
def c10Oracle : Oracle := fun _ _ => ([⟨7, none⟩, ⟨8, none⟩], true)

/-- C10 (witness): for the two-route oracle above under mode/strategy
"BestPaths", the pricing pass appends exactly the tagged last route. -/
theorem pricing_adds_exactly_last_route_witness :
    (solve_subproblem_with_heuristic "BestPaths" "BestPaths" c10Oracle false
        c10St.routes).produced_column = true
    ∧ (solve_subproblem_with_heuristic "BestPaths" "BestPaths" c10Oracle false
        c10St.routes).routes ≠ []
    ∧ ∃ last,
        (solve_subproblem_with_heuristic "BestPaths" "BestPaths" c10Oracle false
            c10St.routes).routes.getLast? = some last
        ∧ (pricing_pass "BestPaths" "BestPaths" c10Oracle c10St).1.master.columns
            = c10St.master.columns ++ [{ last with heuristic := some "BestPaths" }]
        ∧ (pricing_pass "BestPaths" "BestPaths" c10Oracle c10St).1.master.constrs
            = c10St.master.constrs
        ∧ (pricing_pass "BestPaths" "BestPaths" c10Oracle c10St).1.routes
            = (solve_subproblem_with_heuristic "BestPaths" "BestPaths" c10Oracle false
                c10St.routes).routes.dropLast ++ [{ last with heuristic := some "BestPaths" }] :=
  ⟨by decide, by decide,
    pricing_adds_exactly_last_route "BestPaths" "BestPaths" c10Oracle c10St
      (by decide) (by decide)⟩

/-- C1 (amended): in every pricing mode other than "Hyper", if every
non-exact subproblem call fails to produce a column, then
`_attempt_solve_Exact` is invoked within the same
`_solve_subproblem_with_heuristic` call (the old-approach escalation);
under mode "Hyper" no such escalation exists and Exact runs only when it
is the selected strategy. -/
theorem non_hyper_escalates_to_exact (mode strategy : String) (oracle : Oracle)
    (more0 : Bool) (routes0 : List Route) (hmode : mode ≠ "Hyper")
    (hfail : ∀ s p, s ≠ "Exact" → (oracle s p).2 = false) :
    ∃ c ∈ (solve_subproblem_with_heuristic mode strategy oracle more0 routes0).calls,
      c.strategy = "Exact" := by
  have hsweep : ∀ (s : String) (L : List ℚ) (rs0 : List Route), s ≠ "Exact" →
      (sweep_params oracle s rs0 L []).produced_column = false := by
    intro s L rs0 hs
    cases hp : (sweep_params oracle s rs0 L []).produced_column with
    | false => rfl
    | true =>
      obtain ⟨p, -, hps⟩ := ((sweep_params_spec oracle s L rs0 []).1).mp hp
      rw [hfail s (some p) hs] at hps
      exact Bool.noConfusion hps
  by_cases h1 : strategy = "BestPaths"
  · have hp : (attempt_solve_best_paths oracle routes0).produced_column = false :=
      hsweep "BestPaths" bestPathsParams routes0 (by decide)
    refine ⟨⟨"Exact", none, (oracle "Exact" none).2⟩, ?_, rfl⟩
    simp only [solve_subproblem_with_heuristic, hmode, h1, String.reduceEq, reduceIte]
    simp [hp, attempt_Exact_eq]
  · by_cases h2 : strategy = "BestEdges1"
    · have hp : (attempt_solve_BestEdges1 oracle routes0).produced_column = false :=
        hsweep "BestEdges1" bestEdges1Params routes0 (by decide)
      refine ⟨⟨"Exact", none, (oracle "Exact" none).2⟩, ?_, rfl⟩
      simp only [solve_subproblem_with_heuristic, hmode, h1, h2, String.reduceEq, reduceIte]
      simp [hp, attempt_Exact_eq]
    · by_cases h3 : strategy = "BestEdges2"
      · have hp : (attempt_solve_BestEdges2 oracle routes0).produced_column = false :=
          hsweep "BestEdges2" bestEdges2Params routes0 (by decide)
        refine ⟨⟨"Exact", none, (oracle "Exact" none).2⟩, ?_, rfl⟩
        simp only [solve_subproblem_with_heuristic, hmode, h1, h2, h3, String.reduceEq,
          reduceIte]
        simp [hp, attempt_Exact_eq]
      · refine ⟨⟨"Exact", none, (oracle "Exact" none).2⟩, ?_, rfl⟩
        simp only [solve_subproblem_with_heuristic, hmode, h1, h2, h3, String.reduceEq,
          reduceIte]
        simp [attempt_Exact_eq]

/-- C1 (witness): the escalation theorem applies, e.g., to mode
"BestEdges1" with an always-failing oracle. -/
theorem non_hyper_escalates_to_exact_witness :
    ("BestEdges1" : String) ≠ "Hyper"
    ∧ ∃ c ∈ (solve_subproblem_with_heuristic "BestEdges1" "BestEdges1"
        (fun _ _ => ([], false)) false []).calls, c.strategy = "Exact" :=
  ⟨by decide,
    non_hyper_escalates_to_exact "BestEdges1" "BestEdges1" (fun _ _ => ([], false)) false []
      (by decide) (fun s p hs => rfl)⟩

/-- Concrete instances for the C1 counterexample: Hyper mode, one vehicle
type, hyper initialisation already done, the hyper-heuristic picks
"BestPaths", and the pricing oracle never finds a column. -/
def c1Cfg : Config := ⟨"Hyper", 1, false, false, none, none, "Weighted average"⟩

/-- Iteration inputs for the C1 counterexample. -/
def c1Env : IterEnv := ⟨7, "BestPaths", fun _ _ _ => ([], false), fun _ => ([], false), 0⟩

/-- Solver state for the C1 counterexample. -/
def c1St : CGState := ⟨true, [], ⟨[], []⟩, false, 5, 3, [7], 1000, false⟩

/-- C1 (counterexample): under pricing-strategy mode "Hyper", an
iteration in which every parameter value of the selected non-exact sweep
fails (all four BestPaths parameters are probed, none finds a column)
makes no Exact attempt at all: `_attempt_solve_Exact` is never invoked
before the loop advances, contradicting the claim for mode "Hyper". -/
theorem hyper_mode_skips_exact_escalation :
    ((find_columns c1Cfg c1Env c1St).2).length = 4
    ∧ (∀ c ∈ (find_columns c1Cfg c1Env c1St).2, c.strategy = "BestPaths" ∧ c.found = false)
    ∧ (∀ c ∈ (find_columns c1Cfg c1Env c1St).2, c.strategy ≠ "Exact") := by
  refine ⟨by decide, by decide, by decide⟩

/-! ### The per-iteration loop: convergence and the no-improvement counter -/

theorem pick_strategy_counter (cfg : Config) (env : IterEnv) (st : CGState) :
    (pick_strategy cfg env st).1.no_improvement =
      (if st.no_improvement = st.do_exact then 0 else st.no_improvement)
    ∧ (pick_strategy cfg env st).1.iteration = st.iteration
    ∧ (pick_strategy cfg env st).1.lower_bound = st.lower_bound := by
  by_cases h2 : st.no_improvement = st.do_exact
  · have h1 : ¬ (cfg.pricing_strategy = "Hyper" ∧ ¬ st.no_improvement = st.do_exact) := by
      rintro ⟨-, hne⟩
      exact hne h2
    simp [pick_strategy, h1, h2]
  · by_cases hH : cfg.pricing_strategy = "Hyper"
    · by_cases hi : st.hyper_init <;> simp [pick_strategy, hH, h2, hi]
    · simp [pick_strategy, hH, h2]

theorem pick_strategy_pool (cfg : Config) (env : IterEnv) (st : CGState)
    (hpick : env.pick ∈ strategy_pool) :
    cfg.pricing_strategy = "Hyper" → (pick_strategy cfg env st).2 ∈ strategy_pool := by
  intro hH
  by_cases h2 : st.no_improvement = st.do_exact
  · have h1 : ¬ (cfg.pricing_strategy = "Hyper" ∧ ¬ st.no_improvement = st.do_exact) := by
      rintro ⟨-, hne⟩
      exact hne h2
    simp [pick_strategy, h1, h2, strategy_pool]
  · by_cases hi : st.hyper_init
    · simp [pick_strategy, hH, h2, hi, strategy_pool]
    · simpa [pick_strategy, hH, h2, hi] using hpick

theorem vehicle_step_keeps (cfg : Config) (env : IterEnv) (strat : String)
    (acc : CGState × List Call) (vehicle : Nat) :
    (vehicle_step cfg env strat acc vehicle).1.iteration = acc.1.iteration
    ∧ (vehicle_step cfg env strat acc vehicle).1.no_improvement = acc.1.no_improvement
    ∧ (vehicle_step cfg env strat acc vehicle).1.lower_bound = acc.1.lower_bound := by
  obtain ⟨p1, p2, p3⟩ := pricing_pass_keeps cfg.pricing_strategy strat (env.oracle vehicle)
    (greedy_pass cfg env vehicle acc.1)
  obtain ⟨g1, g2, g3⟩ := greedy_pass_keeps cfg env vehicle acc.1
  exact ⟨p1.trans g1, p2.trans g2, p3.trans g3⟩

theorem fold_keeps (cfg : Config) (env : IterEnv) (strat : String) :
    ∀ (vs : List Nat) (acc : CGState × List Call),
      ((vs.foldl (vehicle_step cfg env strat) acc).1.iteration = acc.1.iteration)
      ∧ ((vs.foldl (vehicle_step cfg env strat) acc).1.no_improvement = acc.1.no_improvement)
      ∧ ((vs.foldl (vehicle_step cfg env strat) acc).1.lower_bound = acc.1.lower_bound) := by
  intro vs
  induction vs with
  | nil => intro acc; exact ⟨rfl, rfl, rfl⟩
  | cons v vs ih =>
    intro acc
    obtain ⟨i1, i2, i3⟩ := ih (vehicle_step cfg env strat acc v)
    obtain ⟨s1, s2, s3⟩ := vehicle_step_keeps cfg env strat acc v
    simp only [List.foldl_cons]
    exact ⟨i1.trans s1, i2.trans s2, i3.trans s3⟩

theorem vehicle_step_converged (cfg : Config) (env : IterEnv) (strat : String)
    (acc : CGState × List Call) (vehicle : Nat)
    (hpool : cfg.pricing_strategy = "Hyper" → strat ∈ strategy_pool)
    (h : (vehicle_step cfg env strat acc vehicle).1.more_routes = false) :
    ((vehicle_step cfg env strat acc vehicle).2).getLast? = some ⟨"Exact", none, false⟩ := by
  have hm : (vehicle_step cfg env strat acc vehicle).1.more_routes
      = (solve_subproblem_with_heuristic cfg.pricing_strategy strat (env.oracle vehicle) false
          (greedy_pass cfg env vehicle acc.1).routes).more_routes :=
    pricing_pass_more cfg.pricing_strategy strat (env.oracle vehicle)
      (greedy_pass cfg env vehicle acc.1)
  rcases solve_sub_cases cfg.pricing_strategy strat (env.oracle vehicle) false
      (greedy_pass cfg env vehicle acc.1).routes with hc | ⟨hc1, -, -⟩ | ⟨hmH, hnotin, -⟩
  · exact absurd (hm.trans hc) (by rw [h]; decide)
  · have hcalls : (vehicle_step cfg env strat acc vehicle).2
        = acc.2 ++ (solve_subproblem_with_heuristic cfg.pricing_strategy strat
            (env.oracle vehicle) false (greedy_pass cfg env vehicle acc.1).routes).calls := by
      show acc.2 ++ (pricing_pass cfg.pricing_strategy strat (env.oracle vehicle)
        (greedy_pass cfg env vehicle acc.1)).2 = _
      rw [pricing_pass_calls]
    rw [hcalls]
    have hne : (solve_subproblem_with_heuristic cfg.pricing_strategy strat
        (env.oracle vehicle) false (greedy_pass cfg env vehicle acc.1).routes).calls ≠ [] := by
      intro hnil
      rw [hnil] at hc1
      exact Option.noConfusion hc1
    rw [List.getLast?_append_of_ne_nil _ hne]
    exact hc1
  · exact absurd (hpool hmH) hnotin

theorem fold_converged (cfg : Config) (env : IterEnv) (strat : String)
    (hpool : cfg.pricing_strategy = "Hyper" → strat ∈ strategy_pool) :
    ∀ (vs : List Nat), vs ≠ [] → ∀ (acc : CGState × List Call),
      (vs.foldl (vehicle_step cfg env strat) acc).1.more_routes = false →
      ((vs.foldl (vehicle_step cfg env strat) acc).2).getLast? = some ⟨"Exact", none, false⟩ := by
  intro vs
  induction vs with
  | nil => intro h; exact absurd rfl h
  | cons v vs ih =>
    intro _ acc
    cases vs with
    | nil =>
      intro h
      exact vehicle_step_converged cfg env strat acc v hpool h
    | cons v2 vs2 =>
      simp only [List.foldl_cons]
      intro h
      exact ih (by simp) (vehicle_step cfg env strat acc v) (by simpa using h)

/-- C2: whenever an iteration of `_find_columns` ends with the
more-routes flag `False` (so that the column-generation while loop exits
through its convergence condition), the last pricing-subproblem call of
that iteration was an Exact attempt that returned no route; every failed
non-exact parameter sweep resets the flag to `True`, so only Exact
pricing can terminate the loop via the flag.  (The hypothesis on
`env.pick` comes from the spec-modelled strategy pool of the
hyper-heuristic's `pick_heurestic`.) -/
theorem convergence_requires_failed_exact (cfg : Config) (env : IterEnv) (st : CGState)
    (hpick : env.pick ∈ strategy_pool) (hveh : 0 < cfg.vehicle_types)
    (h : (find_columns cfg env st).1.more_routes = false) :
    ((find_columns cfg env st).2).getLast? = some ⟨"Exact", none, false⟩ := by
  have hpool := pick_strategy_pool cfg env st hpick
  have hrange : List.range cfg.vehicle_types ≠ [] := by
    simp only [ne_eq, List.range_eq_nil]
    omega
  exact fold_converged cfg env (pick_strategy cfg env st).2 hpool
    (List.range cfg.vehicle_types) hrange ((pick_strategy cfg env st).1, []) h

/-- Concrete instances for the C2 witness: mode "Exact", one vehicle
type, an oracle that never finds a route. -/
def c2wCfg : Config := ⟨"Exact", 1, false, false, none, none, "Weighted average"⟩

/-- Iteration inputs for the C2 witness. -/
def c2wEnv : IterEnv := ⟨5, "Exact", fun _ _ _ => ([], false), fun _ => ([], false), 0⟩

/-- Solver state for the C2 witness. -/
def c2wSt : CGState := ⟨true, [], ⟨[], []⟩, false, 0, 0, [], 1000, false⟩

/-- C2 (witness): with an always-failing oracle under mode "Exact", the
iteration ends with the flag `False` and its last call is the failed
Exact attempt. -/
theorem convergence_requires_failed_exact_witness :
    c2wEnv.pick ∈ strategy_pool
    ∧ 0 < c2wCfg.vehicle_types
    ∧ (find_columns c2wCfg c2wEnv c2wSt).1.more_routes = false
    ∧ ((find_columns c2wCfg c2wEnv c2wSt).2).getLast? = some ⟨"Exact", none, false⟩ :=
  ⟨by decide, by decide, by decide,
    convergence_requires_failed_exact c2wCfg c2wEnv c2wSt (by decide) (by decide) (by decide)⟩

/-- The end-of-iteration bookkeeping the code actually performs, plus the
loop's stopping test: the new counter value increments the value the
counter had *after* the strategy-selection step (which resets it to 0
whenever it had reached `do_exact`), and the loop stops as soon as the
counter exceeds 1000. -/
def no_improvement_spec2 (cfg : Config) (env : IterEnv) (st : CGState) : Prop :=
  ((find_columns cfg env st).1.no_improvement =
    if 1 ≤ st.iteration ∧ st.lower_bound.getLast? = some env.relaxed_cost
    then (if st.no_improvement = st.do_exact then 0 else st.no_improvement) + 1
    else 0)
  ∧ (∀ rest, st.more_routes = true → time_up cfg env = false →
      1000 < (find_columns cfg env st).1.no_improvement →
      column_generation cfg (env :: rest) st = (find_columns cfg env st).1)

/-- C3 (amended): at the end of every iteration (after the first), the
no-improvement counter resets to 0 when the new relaxed objective differs
from the last recorded lower bound, and otherwise increments by 1 from
its *current* value — which the strategy-selection step has already reset
to 0 whenever the counter had reached the `do_exact` threshold (1000 by
default), so an entering value of `do_exact` ends the iteration at 1, not
`do_exact + 1`; the loop terminates once the counter exceeds 1000.  The
hypothesis excludes the corner where Python would raise an `IndexError`
on `self._lower_bound[-1]`. -/
theorem no_improvement_update_rule (cfg : Config) (env : IterEnv) (st : CGState)
    (hsafe : st.iteration = 0 ∨ st.lower_bound ≠ []) :
    no_improvement_spec2 cfg env st := by
  constructor
  · obtain ⟨k1, k2, k3⟩ := fold_keeps cfg env (pick_strategy cfg env st).2
      (List.range cfg.vehicle_types) ((pick_strategy cfg env st).1, [])
    obtain ⟨c1, c2, c3⟩ := pick_strategy_counter cfg env st
    simp only [find_columns]
    rw [k1, k2, k3, c1, c2, c3]
    simp only [Nat.lt_add_one_iff]
  · intro rest hmore htime hcnt
    have hmax : (1000 < (find_columns cfg env st).1.no_improvement
        ∨ max_iter_reached cfg.max_iter (find_columns cfg env st).1.iteration = true) :=
      Or.inl hcnt
    simp only [column_generation, hmore, if_true, htime, Bool.false_eq_true, if_false,
      reduceIte]
    rw [if_pos hmax]

/-- Concrete instances for the C3 counterexample: non-Hyper mode, one
vehicle type, a no-improvement counter that has reached the default
`do_exact` threshold of 1000, and a relaxed objective equal to the last
recorded lower bound. -/
def c3Cfg : Config := ⟨"BestPaths", 1, false, false, none, none, "Weighted average"⟩

/-- Iteration inputs for the C3 counterexample. -/
def c3Env : IterEnv := ⟨10, "BestPaths", fun _ _ _ => ([], false), fun _ => ([], false), 0⟩

/-- Solver state for the C3 counterexample. -/
def c3St : CGState := ⟨true, [], ⟨[], []⟩, false, 5, 1000, [10], 1000, false⟩

/-- C3 (counterexample): on a non-improving iteration entered with the
counter at 1000 (= `do_exact`), the counter ends the iteration at 1, not
at 1001 as "increments by 1" would demand: the strategy-selection step
reset it to 0 (forcing an Exact attempt) before the end-of-iteration
update ran.  Consequently the counter can never exceed 1000 under the
default threshold, and the `> 1000` loop exit is unreachable. -/
theorem no_improvement_reset_at_do_exact_cex :
    c3St.no_improvement = 1000
    ∧ c3St.do_exact = 1000
    ∧ c3St.lower_bound.getLast? = some c3Env.relaxed_cost
    ∧ (find_columns c3Cfg c3Env c3St).1.no_improvement = 1
    ∧ (1 : ℕ) ≠ c3St.no_improvement + 1 := by
  refine ⟨by decide, by decide, by decide, by decide, by decide⟩

/-- Concrete instances for the C3 witness. -/
def c3wCfg : Config := ⟨"BestPaths", 1, false, false, none, none, "Weighted average"⟩

/-- Iteration inputs for the C3 witness. -/
def c3wEnv : IterEnv := ⟨4, "BestPaths", fun _ _ _ => ([], false), fun _ => ([], false), 0⟩

/-- Solver state for the C3 witness. -/
def c3wSt : CGState := ⟨true, [], ⟨[], []⟩, false, 0, 0, [], 1000, false⟩

/-- C3 (witness): the update rule applies, e.g., to a first iteration
with an empty lower-bound history. -/
theorem no_improvement_update_rule_witness :
    (c3wSt.iteration = 0 ∨ c3wSt.lower_bound ≠ []) ∧ no_improvement_spec2 c3wCfg c3wEnv c3wSt :=
  ⟨Or.inl rfl, no_improvement_update_rule c3wCfg c3wEnv c3wSt (Or.inl rfl)⟩

/-! ### Initial-route digraphs and the node-list round trip -/

/-- The edge sequence `list(zip(r[:-1], r[1:]))` that
`_convert_initial_routes_to_digraphs` feeds to `DiGraph.add_edge`.  The
DiGraph stores these edges as a set; only membership in this list
matters below. -/
def routeEdges : List String → List (String × String)
  | i :: j :: rest => (i, j) :: routeEdges (j :: rest)
  | _ => []

/-- One route DiGraph as built by `_convert_initial_routes_to_digraphs`
(main.py:831-855): its `name`, its edges with costs taken from the
instance graph (vehicle type 0), the accumulated `graph["cost"]`, and
`graph["vehicle_type"] = 0`. -/
structure RouteDiGraph where
  name : Nat
  edges : List (String × String)
  cost : ℚ
  vehicle_type : Nat

/-- Embeds the body of `_convert_initial_routes_to_digraphs` for one
initial route `r` with identifier `route_id`. -/
def convert_initial_route (G_cost : String → String → ℚ) (route_id : Nat)
    (r : List String) : RouteDiGraph :=
  { name := route_id
    edges := routeEdges r
    cost := ((routeEdges r).map (fun e => G_cost e.1 e.2)).sum
    vehicle_type := 0 }

/-- Embeds `_convert_initial_routes_to_digraphs` over the whole initial
route list (`route_id` starts at 1 and increments). -/
def convert_initial_routes_to_digraphs (G_cost : String → String → ℚ)
    (rs : List (List String)) : List RouteDiGraph :=
  ((List.range rs.length).zip rs).map (fun p => convert_initial_route G_cost (p.1 + 1) p.2)

/-- A Source-to-Sink path of a route DiGraph, as a Boolean predicate:
the node list starts at `s`, ends at `t`, and every consecutive pair is
an edge. -/
def is_path_in (E : List (String × String)) (s t : String) (w : List String) : Bool :=
  decide (w.head? = some s) && decide (w.getLast? = some t)
    && (routeEdges w).all (fun e => decide (e ∈ E))

/-- The contract of the external `networkx.shortest_path` call in
`_best_routes_as_node_lists` (main.py:1060): it returns a
Source-to-Sink path with the fewest nodes. -/
def is_shortest_path (E : List (String × String)) (s t : String) (w : List String) : Prop :=
  is_path_in E s t w = true
  ∧ ∀ w2, is_path_in E s t w2 = true → w.length ≤ w2.length

theorem is_path_in_iff (E : List (String × String)) (s t : String) (w : List String) :
    is_path_in E s t w = true ↔
      (w.head? = some s ∧ w.getLast? = some t ∧ ∀ e ∈ routeEdges w, e ∈ E) := by
  simp [is_path_in, List.all_eq_true, and_assoc]

theorem routeEdges_src_mem : ∀ (l : List String) (u v : String),
    (u, v) ∈ routeEdges l → u ∈ l.dropLast := by
  intro l
  induction l with
  | nil => intro u v h; simp [routeEdges] at h
  | cons a l ih =>
    cases l with
    | nil => intro u v h; simp [routeEdges] at h
    | cons b l2 =>
      intro u v h
      rcases List.mem_cons.mp h with h | h
      · have hu : u = a := by
          simpa using congrArg Prod.fst h
        simp [List.dropLast, hu]
      · have := ih u v h
        simp only [List.dropLast]
        exact List.mem_cons_of_mem a this

theorem routeEdges_tgt_mem : ∀ (l : List String) (u v : String),
    (u, v) ∈ routeEdges l → v ∈ l.tail := by
  intro l
  induction l with
  | nil => intro u v h; simp [routeEdges] at h
  | cons a l ih =>
    cases l with
    | nil => intro u v h; simp [routeEdges] at h
    | cons b l2 =>
      intro u v h
      rcases List.mem_cons.mp h with h | h
      · have hv : v = b := by
          simpa using congrArg Prod.snd h
        simp [hv]
      · have := ih u v h
        simp only [List.tail_cons] at this ⊢
        exact List.mem_cons_of_mem b this

theorem mem_is_tgt : ∀ (w : List String) (a x : String),
    x ∈ w → ∃ u, (u, x) ∈ routeEdges (a :: w) := by
  intro w
  induction w with
  | nil => intro a x h; simp at h
  | cons b w2 ih =>
    intro a x h
    rcases List.mem_cons.mp h with h | h
    · exact ⟨a, by simp [routeEdges, h]⟩
    · obtain ⟨u, hu⟩ := ih b x h
      exact ⟨u, by simp only [routeEdges]; exact List.mem_cons_of_mem _ hu⟩

theorem mem_of_getLast?_eq : ∀ (l : List String) (x : String), l.getLast? = some x → x ∈ l := by
  intro l
  induction l with
  | nil => intro x h; simp at h
  | cons a l ih =>
    intro x h
    cases l with
    | nil =>
      have hax : a = x := by simpa using h
      simp [hax]
    | cons b l2 =>
      rw [List.getLast?_cons_cons] at h
      exact List.mem_cons_of_mem a (ih x h)

theorem mem_of_mem_dropLast : ∀ (l : List String) (x : String), x ∈ l.dropLast → x ∈ l := by
  intro l x h
  exact (List.dropLast_sublist l).subset h

/-- In the DiGraph of a duplicate-free node list, the only
Source-to-Sink path is the original list itself: every node has at most
one outgoing edge and the Sink has none, so the walk is forced. -/
theorem path_in_routeEdges_unique :
    ∀ (r : List String) (s t : String), r.Nodup → r.head? = some s → r.getLast? = some t →
      ∀ w, is_path_in (routeEdges r) s t w = true → w = r := by
  intro r
  induction r with
  | nil =>
    intro s t _ hs _ w _
    exact absurd hs (by simp)
  | cons a r ih =>
    intro s t hnd hs ht w hw
    obtain ⟨hwh, hwt, hwe⟩ := (is_path_in_iff _ _ _ _).mp hw
    have hsa : a = s := by simpa using hs
    subst hsa
    cases r with
    | nil =>
      cases w with
      | nil => simp at hwh
      | cons x w2 =>
        have hxa : x = a := by simpa using hwh
        cases w2 with
        | nil => simp [hxa]
        | cons y w3 =>
          exfalso
          have hmem : (x, y) ∈ routeEdges (x :: y :: w3) := by
            simp [routeEdges]
          have := hwe _ hmem
          simp [routeEdges] at this
    | cons b r2 =>
      have hnd1 : a ∉ b :: r2 := (List.nodup_cons.mp hnd).1
      have hnd2 : (b :: r2).Nodup := (List.nodup_cons.mp hnd).2
      have ht2 : (b :: r2).getLast? = some t := by
        rw [← List.getLast?_cons_cons (a := a)]
        exact ht
      cases w with
      | nil => simp at hwh
      | cons x w1 =>
        have hxa : x = a := by simpa using hwh
        subst hxa
        cases w1 with
        | nil =>
          exfalso
          have hta : x = t := by simpa using hwt
          have : t ∈ b :: r2 := mem_of_getLast?_eq _ _ ht2
          rw [← hta] at this
          exact hnd1 this
        | cons c w2 =>
          have hedge : (x, c) ∈ routeEdges (x :: b :: r2) :=
            hwe (x, c) (by simp [routeEdges])
          have hcb : c = b := by
            rcases List.mem_cons.mp hedge with h | h
            · simpa using congrArg Prod.snd h
            · exfalso
              have := routeEdges_src_mem _ _ _ h
              exact hnd1 (mem_of_mem_dropLast _ _ this)
          subst hcb
          have hanot : x ∉ c :: w2 := by
            intro hmem
            rcases List.mem_cons.mp hmem with h | h
            · rw [h] at hnd1
              exact hnd1 (List.mem_cons_self c r2)
            · obtain ⟨u, hu⟩ := mem_is_tgt w2 c x h
              have huE : (u, x) ∈ routeEdges (x :: c :: r2) := by
                apply hwe
                simp only [routeEdges]
                exact List.mem_cons_of_mem _ hu
              have := routeEdges_tgt_mem _ _ _ huE
              simp only [List.tail_cons] at this
              exact hnd1 this
          have hwe2 : ∀ e ∈ routeEdges (c :: w2), e ∈ routeEdges (c :: r2) := by
            intro e he
            have heE : e ∈ routeEdges (x :: c :: r2) := by
              apply hwe
              simp only [routeEdges]
              exact List.mem_cons_of_mem _ he
            rcases List.mem_cons.mp heE with h | h
            · exfalso
              have hsrc := routeEdges_src_mem _ _ _ he
              rw [h] at hsrc
              simp only at hsrc
              exact hanot (mem_of_mem_dropLast _ _ hsrc)
            · exact h
          have hrec : (c :: w2) = (c :: r2) := by
            apply ih c t hnd2 (by simp) ht2
            apply (is_path_in_iff _ _ _ _).mpr
            refine ⟨by simp, ?_, hwe2⟩
            rw [← List.getLast?_cons_cons (a := x)]
            exact hwt
          rw [hrec]

/-- C8 (amended): for every initial route whose node list is
duplicate-free, converting it to a route DiGraph with
`_convert_initial_routes_to_digraphs` and reading back any
Source-to-Sink path (as `_best_routes_as_node_lists` does through
`networkx.shortest_path`) yields the identical node sequence. -/
theorem roundtrip_identity_for_nodup_routes (G_cost : String → String → ℚ) (route_id : Nat)
    (r : List String) (hnd : r.Nodup) (hs : r.head? = some "Source")
    (ht : r.getLast? = some "Sink") (w : List String)
    (hw : is_path_in (convert_initial_route G_cost route_id r).edges "Source" "Sink" w
        = true) :
    w = r :=
  path_in_routeEdges_unique r "Source" "Sink" hnd hs ht w hw

/-- C8 (witness): the round trip is the identity, e.g., on the simple
route Source → A → Sink. -/
theorem roundtrip_identity_for_nodup_routes_witness :
    (["Source", "A", "Sink"] : List String).Nodup
    ∧ is_path_in (convert_initial_route (fun _ _ => 0) 1 ["Source", "A", "Sink"]).edges
        "Source" "Sink" ["Source", "A", "Sink"] = true
    ∧ (["Source", "A", "Sink"] : List String) = ["Source", "A", "Sink"] :=
  ⟨by decide, by decide,
    roundtrip_identity_for_nodup_routes (fun _ _ => 0) 1 ["Source", "A", "Sink"] (by decide)
      (by decide) (by decide) ["Source", "A", "Sink"] (by decide)⟩

/-- The repeated-node route refuting the unrestricted round-trip claim. -/
def cexRoute : List String := ["Source", "A", "B", "A", "Sink"]

/-- C8 (counterexample): the round-trip claim is false as stated for
arbitrary Source-to-Sink node lists: the route
Source → A → B → A → Sink revisits node A, its DiGraph contains the
shortcut Source → A → Sink, and therefore every shortest Source-to-Sink
path has three nodes and cannot equal the original five-node sequence. -/
theorem roundtrip_fails_with_repeated_node :
    ¬ (∀ (r : List String), r.head? = some "Source" → r.getLast? = some "Sink" →
        ∀ w, is_shortest_path (convert_initial_route (fun _ _ => 0) 1 r).edges
              "Source" "Sink" w → w = r) := by
  intro hclaim
  have hshort : is_shortest_path (convert_initial_route (fun _ _ => 0) 1 cexRoute).edges
      "Source" "Sink" ["Source", "A", "Sink"] := by
    constructor
    · decide
    · intro w2 hw2
      obtain ⟨h1, h2, h3⟩ := (is_path_in_iff _ _ _ _).mp hw2
      cases w2 with
      | nil => simp at h1
      | cons x w3 =>
        cases w3 with
        | nil =>
          exfalso
          have hx1 : x = "Source" := by simpa using h1
          have hx2 : x = "Sink" := by simpa using h2
          rw [hx1] at hx2
          exact absurd hx2 (by decide)
        | cons y w4 =>
          cases w4 with
          | nil =>
            exfalso
            have hx : x = "Source" := by simpa using h1
            have hy : y = "Sink" := by simpa using h2
            have hmem := h3 (x, y) (by simp [routeEdges])
            rw [hx, hy] at hmem
            revert hmem
            decide
          | cons z w5 => simp
  have := hclaim cexRoute (by decide) (by decide) ["Source", "A", "Sink"] hshort
  exact absurd this (by decide)
